import Mathlib

/-!
Shallow embedding of `app/dashboard/views/index.py`: the dashboard controller
of an email-alias management application.  Database rows become Lean
structures, the database session becomes an explicit `Db` value, and each
form action of the `index` view becomes a function from `Db` (plus request
inputs) to `Db` together with its user-visible outcome.  Timestamps
(`created_at` columns) are modelled as natural numbers.
-/

namespace DashboardIndex

/-- An OAuth client (`Client` model), referenced through `ClientUser.client`. -/
structure Client where
  id : Nat
  name : String
deriving DecidableEq, Repr

/-- Join row between a user and an OAuth client (`ClientUser` model);
`client` is the `joinedload`ed relationship. -/
structure ClientUser where
  id : Nat
  user_id : Nat
  client : Client
deriving DecidableEq, Repr

/-- A real destination address owned by a user (`Mailbox` model). -/
structure Mailbox where
  id : Nat
  user_id : Nat
  email : String
deriving DecidableEq, Repr

/-- The current user (`User` model).  `can_create_new_alias` —
Modelled from the spec: "create a random alias (subject to a plan-based
quota check)"; the method's body lives in `app/models.py`, outside this
module, so its verdict is carried as a field. -/
structure User where
  id : Nat
  intro_shown : Bool
  alias_generator : Nat
  default_mailbox_id : Nat
  can_create_new_alias : Bool
deriving DecidableEq, Repr

/-- A disposable forwarding address (`Alias` model). -/
structure Alias where
  id : Nat
  user_id : Nat
  email : String
  note : Option String
  enabled : Bool
  created_at : Nat
  mailbox_id : Nat
deriving DecidableEq, Repr

/-- A remote sender associated with an alias (`Contact` model). -/
structure Contact where
  id : Nat
  alias_id : Nat
deriving DecidableEq, Repr

/-- A record of one handled message (`EmailLog` model); belongs to a contact. -/
structure EmailLog where
  id : Nat
  contact_id : Nat
  is_reply : Bool
  blocked : Bool
  created_at : Nat
deriving DecidableEq, Repr

/-- Tombstone row for a deleted alias email (`DeletedAlias` model);
the schema enforces global uniqueness of `email`. -/
structure DeletedAlias where
  user_id : Nat
  email : String
deriving DecidableEq, Repr

/-- The committed database state visible to this module. -/
structure Db where
  aliases : List Alias
  mailboxes : List Mailbox
  contacts : List Contact
  email_logs : List EmailLog
  deleted_aliases : List DeletedAlias
deriving DecidableEq, Repr

/-- Flavour of a `flash` message emitted by the view. -/
inductive FlashKind where
  | success
  | warning
deriving DecidableEq, Repr

/-! ## The per-alias statistics query (`get_alias_info`) -/

/-- The joined rows of
`db.session.query(Contact, EmailLog).filter(Contact.alias_id == alias.id)
.filter(EmailLog.contact_id == Contact.id)`: every (contact, email-log)
pair reachable from the alias, in one fixed linearisation of the join. -/
def aliasLogs (db : Db) (a : Alias) : List (Contact × EmailLog) :=
  (db.contacts.filter (fun c => c.alias_id == a.id)).flatMap
    (fun c => (db.email_logs.filter (fun e => e.contact_id == c.id)).map
      (fun e => (c, e)))

/-- `alias.mailbox` relationship: the mailbox row keyed by `alias.mailbox_id`. -/
def mailboxOf (db : Db) (a : Alias) : Option Mailbox :=
  db.mailboxes.find? (fun m => m.id == a.mailbox_id)

/-- Result record built by `get_alias_info` (the `AliasInfo` dataclass). -/
structure AliasInfo where
  «alias» : Alias
  mailbox : Option Mailbox
  nb_forward : Nat
  nb_blocked : Nat
  nb_reply : Nat
  latest_email_log : Option EmailLog
  latest_contact : Option Contact
deriving DecidableEq, Repr

/-- Mutable state of the `for contact, email_log in q:` loop in
`get_alias_info`: the three counters plus the running latest-activity
tracker and the latest pair seen so far. -/
structure ScanState where
  nb_forward : Nat
  nb_blocked : Nat
  nb_reply : Nat
  latest_activity : Nat
  latest_email_log : Option EmailLog
  latest_contact : Option Contact
deriving DecidableEq, Repr

/-- One iteration of the loop body of `get_alias_info`: classify the log
(`is_reply` first, then `blocked`, else forwarded) and update the latest
pair when this log is strictly more recent than the running tracker. -/
def scanStep (s : ScanState) (p : Contact × EmailLog) : ScanState :=
  let s' :=
    if p.2.is_reply then { s with nb_reply := s.nb_reply + 1 }
    else if p.2.blocked then { s with nb_blocked := s.nb_blocked + 1 }
    else { s with nb_forward := s.nb_forward + 1 }
  if s'.latest_activity < p.2.created_at then
    { s' with latest_activity := p.2.created_at
              latest_email_log := some p.2
              latest_contact := some p.1 }
  else s'

/-- `get_alias_info(alias)`: fold the loop body over the joined rows,
starting from zero counters and `latest_activity = alias.created_at`,
then package the result into an `AliasInfo`. -/
def get_alias_info (db : Db) (a : Alias) : AliasInfo :=
  let s0 : ScanState :=
    { nb_forward := 0, nb_blocked := 0, nb_reply := 0
      latest_activity := a.created_at
      latest_email_log := none, latest_contact := none }
  let s := (aliasLogs db a).foldl scanStep s0
  { «alias» := a, mailbox := mailboxOf db a
    nb_forward := s.nb_forward, nb_blocked := s.nb_blocked
    nb_reply := s.nb_reply
    latest_email_log := s.latest_email_log
    latest_contact := s.latest_contact }

/-! ## The paginated listing (`get_alias_infos_with_pagination`) -/

/-- Case-insensitive substring test: `s ILIKE '%sub%'` on a non-NULL
column value `s`. -/
def ilikeContains (s sub : String) : Bool :=
  let hay := s.toLower.toList
  let needle := sub.toLower.toList
  (List.range (hay.length + 1)).any (fun i =>
    needle == (hay.drop i).take needle.length)

/-- The filter
`or_(Alias.email.ilike(f"%{query}%"), Alias.note.ilike(f"%{query}%"))`:
a NULL note never matches. -/
def matchesQuery (q : String) (a : Alias) : Bool :=
  ilikeContains a.email q ||
    (match a.note with
     | some n => ilikeContains n q
     | none => false)

/-- The aggregate
`func.max(case([(Alias.created_at > EmailLog.created_at, Alias.created_at),
(Alias.created_at < EmailLog.created_at, EmailLog.created_at)],
else_=Alias.created_at))` over the outer-joined rows of one alias:
the maximum of the alias's creation time and all its logs' creation
times (the alias's creation time alone when it has no logs). -/
def latestActivity (db : Db) (a : Alias) : Nat :=
  (aliasLogs db a).foldl (fun m p => max m p.2.created_at) a.created_at

/-- Modelled from the spec: the "fixed page size" constant `PAGE_LIMIT`
imported from `app.config`, whose value is outside this module.  Every
theorem below holds for any value. -/
def PAGE_LIMIT : Nat := 20

/-- The rows produced by the query of `get_alias_infos_with_pagination`
before `limit`/`offset`: the user's aliases, optionally filtered by the
query string, ordered by descending latest activity (`order_by(
latest_activity.desc())`; ties in one fixed linearisation). -/
def orderedFilteredAliases (db : Db) (user : User) (query : String) :
    List Alias :=
  let base := db.aliases.filter (fun a => a.user_id == user.id)
  let filtered := if query == "" then base else base.filter (matchesQuery query)
  filtered.mergeSort (fun a b => decide (latestActivity db b ≤ latestActivity db a))

/-- `get_alias_infos_with_pagination(user, page, query)`: apply
`OFFSET page * PAGE_LIMIT` then `LIMIT PAGE_LIMIT` to the ordered,
filtered rows, and run the `ret.append(get_alias_info(alias))` loop. -/
def get_alias_infos_with_pagination (db : Db) (user : User) (page : Nat)
    (query : String) : List AliasInfo :=
  let q := ((orderedFilteredAliases db user query).drop (page * PAGE_LIMIT)).take
    PAGE_LIMIT
  q.foldl (fun ret a => ret ++ [get_alias_info db a]) []

/-! ## The POST form actions of `index` -/

/-- Outcome of a POST branch as the user sees it: a redirect that
highlights an alias, or a flash-and-fall-through to the plain redirect. -/
inductive ActionResult where
  | redirectHighlight (alias_id : Nat) (flash : FlashKind)
  | flashOnly (flash : FlashKind)
deriving DecidableEq, Repr

/-- Modelled from the spec: `Alias.create_new_random(user=..., scheme=...)`
(defined in `app/models.py`, outside this module) creates and adds a fresh
alias row for the user.  The generated address itself is opaque; the row is
given an id not present in the database. -/
def create_new_random (db : Db) (u : User) (scheme : Nat) : Alias :=
  { id := (db.aliases.map (fun a => a.id)).foldl max 0 + 1
    user_id := u.id
    email := "random-" ++ toString scheme
    note := none
    enabled := true
    created_at := 0
    mailbox_id := 0 }

/-- The `create-random-email` branch: when the plan-based quota check
passes, create a random alias, point it at the user's default mailbox,
commit, and redirect highlighting it; otherwise flash a warning and
change nothing. -/
def createRandomEmailAction (db : Db) (u : User) (scheme : Nat) :
    Db × ActionResult :=
  if u.can_create_new_alias then
    let a := create_new_random db u scheme
    let a := { a with mailbox_id := u.default_mailbox_id }
    ({ db with aliases := db.aliases ++ [a] },
      ActionResult.redirectHighlight a.id FlashKind.success)
  else
    (db, ActionResult.flashOnly FlashKind.warning)

/-- Row-level effect of `alias.enabled = not alias.enabled` on the row
addressed by `Alias.get(alias_id)` (other rows untouched). -/
def toggleIfMatch (alias_id : Nat) (a : Alias) : Alias :=
  if a.id == alias_id then { a with enabled := !a.enabled } else a

/-- The `switch-email-forwarding` branch, restricted to its state change:
`alias.enabled = not alias.enabled` on the addressed row, then commit. -/
def switchEmailForwardingAction (db : Db) (alias_id : Nat) : Db :=
  { db with aliases := db.aliases.map (toggleIfMatch alias_id) }

/-- The `delete-email` branch: delete the alias and commit; then attempt
to insert a `DeletedAlias` tombstone for its email and commit.  The
schema's uniqueness constraint on `DeletedAlias.email` makes the insert
raise `IntegrityError` exactly when a tombstone with that email already
exists; the handler catches it and rolls the uncommitted insert back,
leaving the committed deletion in place. -/
def deleteEmailAction (db : Db) (u : User) (a : Alias) : Db × FlashKind :=
  let email := a.email
  let db1 := { db with aliases := db.aliases.filter (fun x => x.id != a.id) }
  if db1.deleted_aliases.any (fun t => t.email == email) then
    (db1, FlashKind.success)
  else
    ({ db1 with deleted_aliases :=
        db1.deleted_aliases ++ [{ user_id := u.id, email := email }] },
      FlashKind.success)

/-- Row-level effect of `alias.mailbox_id = mailbox.id` on the row
addressed by `Alias.get(alias_id)` (other rows untouched). -/
def setMailboxIfMatch (alias_id mailbox_id : Nat) (a : Alias) : Alias :=
  if a.id == alias_id then { a with mailbox_id := mailbox_id } else a

/-- The `set-mailbox` branch: `Mailbox.get_by(email=...)`; when no mailbox
matches or the match belongs to another user, flash a warning and change
nothing; otherwise set the alias's `mailbox_id` and commit. -/
def setMailboxAction (db : Db) (u : User) (alias_id : Nat)
    (mailbox_email : String) : Db × ActionResult :=
  match db.mailboxes.find? (fun m => m.email == mailbox_email) with
  | none => (db, ActionResult.flashOnly FlashKind.warning)
  | some mb =>
    if mb.user_id != u.id then
      (db, ActionResult.flashOnly FlashKind.warning)
    else
      ({ db with aliases := db.aliases.map (setMailboxIfMatch alias_id mb.id) },
        ActionResult.redirectHighlight alias_id FlashKind.success)

/-! ## GET rendering -/

/-- The `client_users` block: fetch the user's `ClientUser` rows, call
`sorted(client_users, key=lambda cu: cu.client.name)` — whose return value
is discarded — and pass `client_users` itself to the template. -/
def clientUsersForTemplate (client_users : List ClientUser) :
    List ClientUser :=
  let _sortedCopy := client_users.mergeSort
    (fun x y => decide (x.client.name ≤ y.client.name))
  client_users

/-- The first-time-login banner logic: when `intro_shown` is still false,
render with `show_intro = True` and permanently commit `intro_shown = True`;
otherwise render with `show_intro = False`. -/
def renderIntro (u : User) : Bool × User :=
  if !u.intro_shown then (true, { u with intro_shown := true })
  else (false, u)

/-- `n + 1` successive renderings of the dashboard starting from user
state `u`: the flag shown by the last rendering and the user state after
it. -/
def renderIntroN : Nat → User → Bool × User
  | 0, u => renderIntro u
  | n + 1, u => renderIntroN n (renderIntro u).2

/-! ## Concrete database fixtures used to evaluate the definitions -/

/-- Fixture alias created at time 10 whose only log predates it. -/
def ex2Alias : Alias :=
  { id := 1, user_id := 1, email := "a@sl.local", note := none
    enabled := true, created_at := 10, mailbox_id := 1 }

/-- Fixture contact of `ex2Alias`. -/
def ex2Contact : Contact := { id := 1, alias_id := 1 }

/-- Fixture forwarded (non-reply, non-blocked) log at time 5. -/
def ex2Log : EmailLog :=
  { id := 1, contact_id := 1, is_reply := false, blocked := false
    created_at := 5 }

/-- Fixture database holding exactly `ex2Alias`, `ex2Contact`, `ex2Log`. -/
def ex2Db : Db :=
  { aliases := [ex2Alias], mailboxes := [], contacts := [ex2Contact]
    email_logs := [ex2Log], deleted_aliases := [] }

/-- Fixture user id 7. -/
def ex3User : User :=
  { id := 7, intro_shown := true, alias_generator := 1
    default_mailbox_id := 1, can_create_new_alias := true }

/-- Fixture alias whose email already has a tombstone in `ex3Db`. -/
def ex3Alias : Alias :=
  { id := 3, user_id := 7, email := "gone@sl.local", note := none
    enabled := true, created_at := 0, mailbox_id := 1 }

/-- Fixture database where `ex3Alias` exists and its email is already
tombstoned. -/
def ex3Db : Db :=
  { aliases := [ex3Alias], mailboxes := [], contacts := [], email_logs := []
    deleted_aliases := [{ user_id := 7, email := "gone@sl.local" }] }

/-- Fixture current user id 1. -/
def ex4User : User :=
  { id := 1, intro_shown := true, alias_generator := 1
    default_mailbox_id := 1, can_create_new_alias := true }

/-- Fixture mailbox owned by user 2, not by `ex4User`. -/
def ex4Mailbox : Mailbox := { id := 9, user_id := 2, email := "other@mb.local" }

/-- Fixture database: one alias of user 1 and one foreign mailbox. -/
def ex4Db : Db :=
  { aliases := [{ id := 1, user_id := 1, email := "x@sl.local", note := none
                  enabled := true, created_at := 0, mailbox_id := 1 }]
    mailboxes := [ex4Mailbox], contacts := [], email_logs := []
    deleted_aliases := [] }

/-- Fixture user who has not yet seen the intro banner. -/
def ex7User : User :=
  { id := 5, intro_shown := false, alias_generator := 1
    default_mailbox_id := 1, can_create_new_alias := true }

/-- Fixture user whose plan-based quota check fails. -/
def ex8UserNoQuota : User :=
  { id := 6, intro_shown := true, alias_generator := 1
    default_mailbox_id := 4, can_create_new_alias := false }

/-- Fixture user whose plan-based quota check passes. -/
def ex8UserQuota : User :=
  { id := 6, intro_shown := true, alias_generator := 1
    default_mailbox_id := 4, can_create_new_alias := true }

/-- Fixture empty database. -/
def ex8Db : Db :=
  { aliases := [], mailboxes := [], contacts := [], email_logs := []
    deleted_aliases := [] }

/-- Fixture client user whose client name sorts first. -/
def ex9cuA : ClientUser :=
  { id := 1, user_id := 1, client := { id := 1, name := "alpha" } }

/-- Fixture client user whose client name sorts last. -/
def ex9cuB : ClientUser :=
  { id := 2, user_id := 1, client := { id := 2, name := "beta" } }

/-- Fixture alias created at time 20 with a forwarded log at the same
instant. -/
def ex10Alias : Alias :=
  { id := 2, user_id := 2, email := "b@sl.local", note := none
    enabled := true, created_at := 20, mailbox_id := 1 }

/-- Fixture contact of `ex10Alias`. -/
def ex10Contact : Contact := { id := 2, alias_id := 2 }

/-- Fixture forwarded log timestamped exactly at the alias's creation. -/
def ex10Log : EmailLog :=
  { id := 2, contact_id := 2, is_reply := false, blocked := false
    created_at := 20 }

/-- Fixture database holding exactly `ex10Alias`, `ex10Contact`,
`ex10Log`. -/
def ex10Db : Db :=
  { aliases := [ex10Alias], mailboxes := [], contacts := [ex10Contact]
    email_logs := [ex10Log], deleted_aliases := [] }

/-- Fixture database for evaluating `get_alias_info` in witnesses: one
alias with one reply log, one blocked log, one forwarded log, the
forwarded one strictly after the alias's creation. -/
def ex2wAlias : Alias :=
  { id := 4, user_id := 3, email := "c@sl.local", note := none
    enabled := true, created_at := 10, mailbox_id := 1 }

/-- Fixture contact of `ex2wAlias`. -/
def ex2wContact : Contact := { id := 4, alias_id := 4 }

/-- Fixture reply log of `ex2wContact` at time 3. -/
def ex2wLogReply : EmailLog :=
  { id := 10, contact_id := 4, is_reply := true, blocked := false
    created_at := 3 }

/-- Fixture blocked log of `ex2wContact` at time 4. -/
def ex2wLogBlocked : EmailLog :=
  { id := 11, contact_id := 4, is_reply := false, blocked := true
    created_at := 4 }

/-- Fixture forwarded log of `ex2wContact` at time 15, the latest
activity. -/
def ex2wLogForward : EmailLog :=
  { id := 12, contact_id := 4, is_reply := false, blocked := false
    created_at := 15 }

/-- Fixture database for the `get_alias_info` witness. -/
def ex2wDb : Db :=
  { aliases := [ex2wAlias], mailboxes := [], contacts := [ex2wContact]
    email_logs := [ex2wLogReply, ex2wLogBlocked, ex2wLogForward]
    deleted_aliases := [] }

/-- Fixture user id 1 owning both aliases of `ex1Db`. -/
def ex1User : User :=
  { id := 1, intro_shown := true, alias_generator := 1
    default_mailbox_id := 1, can_create_new_alias := true }

/-- Fixture alias of user 1 created at time 30 with no logs: its latest
activity is its creation time, 30. -/
def ex1AliasQuiet : Alias :=
  { id := 1, user_id := 1, email := "quiet@sl.local", note := none
    enabled := true, created_at := 30, mailbox_id := 1 }

/-- Fixture alias of user 1 created at time 5 whose log at time 50 makes
its latest activity 50, the most recent of the two. -/
def ex1AliasActive : Alias :=
  { id := 2, user_id := 1, email := "active@sl.local", note := none
    enabled := true, created_at := 5, mailbox_id := 1 }

/-- Fixture contact of `ex1AliasActive`. -/
def ex1Contact : Contact := { id := 1, alias_id := 2 }

/-- Fixture forwarded log of `ex1Contact` at time 50. -/
def ex1Log : EmailLog :=
  { id := 1, contact_id := 1, is_reply := false, blocked := false
    created_at := 50 }

/-- Fixture database whose page 0 for user 1 holds two aliases with
distinct latest activities (50 for `ex1AliasActive`, 30 for
`ex1AliasQuiet`). -/
def ex1Db : Db :=
  { aliases := [ex1AliasQuiet, ex1AliasActive], mailboxes := []
    contacts := [ex1Contact], email_logs := [ex1Log]
    deleted_aliases := [] }

/-! ## Helper lemmas -/

theorem le_foldl_max (l : List Nat) (i : Nat) : i ≤ l.foldl max i := by
  induction l generalizing i with
  | nil => exact Nat.le_refl i
  | cons x l ih =>
    exact Nat.le_trans (Nat.le_max_left i x) (ih (max i x))

theorem mem_le_foldl_max (l : List Nat) : ∀ (i x : Nat), x ∈ l →
    x ≤ l.foldl max i := by
  induction l with
  | nil => intro i x hx; cases hx
  | cons y l ih =>
    intro i x hx
    rcases List.mem_cons.mp hx with rfl | hmem
    · exact Nat.le_trans (Nat.le_max_right i x) (le_foldl_max l (max i x))
    · exact ih (max i y) x hmem

theorem foldl_append_singleton_eq_map (f : Alias → AliasInfo) :
    ∀ (l : List Alias) (acc : List AliasInfo),
      l.foldl (fun ret a => ret ++ [f a]) acc = acc ++ l.map f := by
  intro l
  induction l with
  | nil => intro acc; simp
  | cons a l ih => intro acc; simp [ih]

theorem scanStep_counters (s : ScanState) (p : Contact × EmailLog) :
    (scanStep s p).nb_reply =
      s.nb_reply + (if p.2.is_reply then 1 else 0) ∧
    (scanStep s p).nb_blocked =
      s.nb_blocked + (if !p.2.is_reply && p.2.blocked then 1 else 0) ∧
    (scanStep s p).nb_forward =
      s.nb_forward + (if !p.2.is_reply && !p.2.blocked then 1 else 0) := by
  by_cases h1 : p.2.is_reply <;> by_cases h2 : p.2.blocked <;>
    by_cases h3 : s.latest_activity < p.2.created_at <;>
    simp [scanStep, h1, h2, h3]

theorem scanStep_latest_activity (s : ScanState) (p : Contact × EmailLog) :
    (scanStep s p).latest_activity = max s.latest_activity p.2.created_at := by
  by_cases h1 : p.2.is_reply <;> by_cases h2 : p.2.blocked <;>
    by_cases h3 : s.latest_activity < p.2.created_at <;>
    simp [scanStep, h1, h2, h3] <;> omega

theorem scanStep_latest_of_le (s : ScanState) (p : Contact × EmailLog)
    (h : p.2.created_at ≤ s.latest_activity) :
    (scanStep s p).latest_email_log = s.latest_email_log ∧
    (scanStep s p).latest_contact = s.latest_contact ∧
    (scanStep s p).latest_activity = s.latest_activity := by
  have h3 : ¬ s.latest_activity < p.2.created_at := Nat.not_lt.mpr h
  by_cases h1 : p.2.is_reply <;> by_cases h2 : p.2.blocked <;>
    simp [scanStep, h1, h2, h3]

theorem scanStep_latest_of_gt (s : ScanState) (p : Contact × EmailLog)
    (h : s.latest_activity < p.2.created_at) :
    (scanStep s p).latest_email_log = some p.2 ∧
    (scanStep s p).latest_contact = some p.1 ∧
    (scanStep s p).latest_activity = p.2.created_at := by
  by_cases h1 : p.2.is_reply <;> by_cases h2 : p.2.blocked <;>
    simp [scanStep, h1, h2, h]

theorem foldl_scan_counters (l : List (Contact × EmailLog)) :
    ∀ (s : ScanState),
    (l.foldl scanStep s).nb_reply =
      s.nb_reply + l.countP (fun p => p.2.is_reply) ∧
    (l.foldl scanStep s).nb_blocked =
      s.nb_blocked + l.countP (fun p => !p.2.is_reply && p.2.blocked) ∧
    (l.foldl scanStep s).nb_forward =
      s.nb_forward + l.countP (fun p => !p.2.is_reply && !p.2.blocked) := by
  induction l with
  | nil => intro s; simp
  | cons q l ih =>
    intro s
    obtain ⟨ih1, ih2, ih3⟩ := ih (scanStep s q)
    obtain ⟨c1, c2, c3⟩ := scanStep_counters s q
    refine ⟨?_, ?_, ?_⟩ <;>
      simp only [List.foldl_cons, List.countP_cons, ih1, ih2, ih3, c1, c2, c3] <;>
      split <;> omega

theorem foldl_scan_latest_activity (l : List (Contact × EmailLog)) :
    ∀ (s : ScanState),
    (l.foldl scanStep s).latest_activity =
      (l.map (fun p => p.2.created_at)).foldl max s.latest_activity := by
  induction l with
  | nil => intro s; simp
  | cons q l ih =>
    intro s
    simp only [List.foldl_cons, List.map_cons, ih (scanStep s q),
      scanStep_latest_activity]

theorem foldl_scan_no_later (l : List (Contact × EmailLog)) :
    ∀ (s : ScanState), (∀ p ∈ l, p.2.created_at ≤ s.latest_activity) →
    (l.foldl scanStep s).latest_email_log = s.latest_email_log ∧
    (l.foldl scanStep s).latest_contact = s.latest_contact ∧
    (l.foldl scanStep s).latest_activity = s.latest_activity := by
  induction l with
  | nil => intro s _; exact ⟨rfl, rfl, rfl⟩
  | cons q l ih =>
    intro s h
    have hq : q.2.created_at ≤ s.latest_activity := h q (List.mem_cons_self q l)
    obtain ⟨e1, e2, e3⟩ := scanStep_latest_of_le s q hq
    have hrest : ∀ p ∈ l, p.2.created_at ≤ (scanStep s q).latest_activity := by
      intro p hp
      rw [e3]
      exact h p (List.mem_cons_of_mem q hp)
    obtain ⟨f1, f2, f3⟩ := ih (scanStep s q) hrest
    exact ⟨by rw [List.foldl_cons, f1, e1], by rw [List.foldl_cons, f2, e2],
      by rw [List.foldl_cons, f3, e3]⟩

theorem foldl_scan_sets_latest (l : List (Contact × EmailLog)) :
    ∀ (s : ScanState), (∃ p ∈ l, s.latest_activity < p.2.created_at) →
    ∃ p ∈ l, (l.foldl scanStep s).latest_email_log = some p.2 ∧
      (l.foldl scanStep s).latest_contact = some p.1 ∧
      (l.foldl scanStep s).latest_activity = p.2.created_at := by
  induction l with
  | nil => intro s h; simp at h
  | cons q l ih =>
    intro s hex
    rw [List.foldl_cons]
    by_cases hl : ∃ p ∈ l, (scanStep s q).latest_activity < p.2.created_at
    · obtain ⟨p, hp, h1, h2, h3⟩ := ih (scanStep s q) hl
      exact ⟨p, List.mem_cons_of_mem q hp, h1, h2, h3⟩
    · have hle : ∀ p ∈ l, p.2.created_at ≤ (scanStep s q).latest_activity := by
        intro p hp
        by_contra hc
        exact hl ⟨p, hp, Nat.lt_of_not_le hc⟩
      obtain ⟨f1, f2, f3⟩ := foldl_scan_no_later l (scanStep s q) hle
      by_cases hq : s.latest_activity < q.2.created_at
      · obtain ⟨e1, e2, e3⟩ := scanStep_latest_of_gt s q hq
        exact ⟨q, List.mem_cons_self q l, by rw [f1, e1], by rw [f2, e2],
          by rw [f3, e3]⟩
      · obtain ⟨p, hp, hplt⟩ := hex
        rcases List.mem_cons.mp hp with rfl | hmem
        · exact absurd hplt hq
        · obtain ⟨e1, e2, e3⟩ :=
            scanStep_latest_of_le s q (Nat.le_of_not_lt hq)
          exact absurd (hle p hmem) (Nat.not_le.mpr (e3 ▸ hplt))

theorem toggleIfMatch_involutive (alias_id : Nat) (a : Alias) :
    toggleIfMatch alias_id (toggleIfMatch alias_id a) = a := by
  unfold toggleIfMatch
  by_cases h : a.id == alias_id <;> simp [h]

theorem renderIntro_shown (u : User) :
    (renderIntro u).2.intro_shown = true := by
  unfold renderIntro
  by_cases h : u.intro_shown <;> simp [h]

theorem renderIntroN_of_shown (n : Nat) : ∀ (u : User),
    u.intro_shown = true → renderIntroN n u = (false, u) := by
  induction n with
  | zero => intro u h; simp [renderIntroN, renderIntro, h]
  | succ n ih =>
    intro u h
    have hfix : renderIntro u = (false, u) := by simp [renderIntro, h]
    show renderIntroN n (renderIntro u).2 = (false, u)
    rw [hfix]
    exact ih u h

theorem orderedFilteredAliases_length (db : Db) (user : User)
    (query : String) :
    (orderedFilteredAliases db user query).length =
      (if query == ""
       then db.aliases.filter (fun a => a.user_id == user.id)
       else (db.aliases.filter (fun a => a.user_id == user.id)).filter
         (matchesQuery query)).length := by
  unfold orderedFilteredAliases
  exact List.length_mergeSort _

theorem pagination_length_eq (db : Db) (user : User) (page : Nat)
    (query : String) :
    (get_alias_infos_with_pagination db user page query).length =
      min PAGE_LIMIT
        ((orderedFilteredAliases db user query).length - page * PAGE_LIMIT) := by
  unfold get_alias_infos_with_pagination
  rw [foldl_append_singleton_eq_map, List.nil_append, List.length_map,
    List.length_take, List.length_drop]

/-! ## Theorems about the claims -/

/-- C6: applying the `switch-email-forwarding` action twice returns the
database — in particular every alias's `enabled` flag — to its original
state: each application negates `enabled` on the addressed row, and the
double application is the identity. -/
theorem switch_email_forwarding_twice_identity (db : Db) (alias_id : Nat) :
    switchEmailForwardingAction (switchEmailForwardingAction db alias_id)
      alias_id = db := by
  have hmap : ∀ l : List Alias,
      (l.map (toggleIfMatch alias_id)).map (toggleIfMatch alias_id) = l := by
    intro l
    rw [List.map_map]
    calc l.map (toggleIfMatch alias_id ∘ toggleIfMatch alias_id)
        = l.map id := by
          apply List.map_congr_left
          intro a _
          simpa [Function.comp] using toggleIfMatch_involutive alias_id a
      _ = l := List.map_id l
  unfold switchEmailForwardingAction
  simp [hmap]

/-- C6 witness: the double toggle is the identity on the `ex4Db` fixture. -/
theorem switch_email_forwarding_twice_identity_witness :
    switchEmailForwardingAction (switchEmailForwardingAction ex4Db 1) 1 =
      ex4Db :=
  switch_email_forwarding_twice_identity ex4Db 1

/-- C7: the first-time-login banner is one-shot.  When `intro_shown` is
false the first rendering shows the intro and commits `intro_shown = true`;
every later rendering (for any number of further renderings) shows
`show_intro = false`. -/
theorem intro_banner_one_shot (u : User) :
    (u.intro_shown = false →
      (renderIntroN 0 u).1 = true ∧ (renderIntroN 0 u).2.intro_shown = true) ∧
    (∀ n : Nat, (renderIntroN (n + 1) u).1 = false) := by
  constructor
  · intro h
    refine ⟨?_, renderIntro_shown u⟩
    show (renderIntro u).1 = true
    simp [renderIntro, h]
  · intro n
    show (renderIntroN n (renderIntro u).2).1 = false
    rw [renderIntroN_of_shown n (renderIntro u).2 (renderIntro_shown u)]

/-- C7 witness: for the fixture user who has not seen the intro, the first
rendering shows it and the second does not. -/
theorem intro_banner_one_shot_witness :
    ((renderIntroN 0 ex7User).1 = true ∧
      (renderIntroN 0 ex7User).2.intro_shown = true) ∧
    (renderIntroN 1 ex7User).1 = false :=
  ⟨(intro_banner_one_shot ex7User).1 rfl, (intro_banner_one_shot ex7User).2 0⟩

/-- C9: the `sorted(client_users, key=...)` call discards its result, so
the list handed to the template is exactly the query-ordered input; in
particular on a fixture out of name order the rendered list is not sorted
by client name. -/
theorem client_users_not_resorted :
    (∀ l : List ClientUser, clientUsersForTemplate l = l) ∧
    ¬ (clientUsersForTemplate [ex9cuB, ex9cuA]).Pairwise
        (fun x y => x.client.name ≤ y.client.name) := by
  constructor
  · intro l; rfl
  · intro h
    have hpair := (List.pairwise_cons.mp h).1 ex9cuA (List.mem_singleton.mpr rfl)
    rw [String.le_iff_toList_le] at hpair
    exact absurd hpair (by decide)

/-- C9 witness: the template list equals the input on a concrete list. -/
theorem client_users_not_resorted_witness :
    clientUsersForTemplate [ex9cuB, ex9cuA] = [ex9cuB, ex9cuA] :=
  client_users_not_resorted.1 [ex9cuB, ex9cuA]

/-- C4: `set-mailbox` with an email that matches no mailbox, or a mailbox
of another user, returns the database unchanged with a warning flash;
when the matched mailbox belongs to the current user, the addressed
alias's `mailbox_id` is set to the mailbox's id and committed, with a
success redirect highlighting the alias. -/
theorem set_mailbox_validation (db : Db) (u : User) (alias_id : Nat)
    (mbe : String) :
    ((db.mailboxes.find? (fun m => m.email == mbe)).all
        (fun mb => mb.user_id != u.id) = true →
      setMailboxAction db u alias_id mbe =
        (db, ActionResult.flashOnly FlashKind.warning)) ∧
    (∀ mb, db.mailboxes.find? (fun m => m.email == mbe) = some mb →
      mb.user_id = u.id →
      setMailboxAction db u alias_id mbe =
        ({ db with aliases := db.aliases.map (setMailboxIfMatch alias_id mb.id) },
          ActionResult.redirectHighlight alias_id FlashKind.success)) := by
  constructor
  · intro h
    unfold setMailboxAction
    cases hf : db.mailboxes.find? (fun m => m.email == mbe) with
    | none => rfl
    | some mb =>
      rw [hf] at h
      simp only [Option.all_some] at h
      simp [h]
  · intro mb hf hu
    unfold setMailboxAction
    rw [hf]
    simp [hu]

/-- C4 witness: submitting the email of a mailbox owned by another user
leaves the fixture database unchanged and flashes a warning. -/
theorem set_mailbox_validation_witness :
    setMailboxAction ex4Db ex4User 1 "other@mb.local" =
      (ex4Db, ActionResult.flashOnly FlashKind.warning) :=
  (set_mailbox_validation ex4Db ex4User 1 "other@mb.local").1 (by decide)

/-- C3: after `delete-email` the alias is gone from the committed state
and a tombstone with its email is present; when a tombstone with that
email already existed, the tombstone table is unchanged (the duplicate
insert is rolled back) while the deletion stands, and tombstone emails
stay duplicate-free. -/
theorem delete_email_tombstone_safe (db : Db) (u : User) (a : Alias) :
    (∀ x ∈ (deleteEmailAction db u a).1.aliases, x.id ≠ a.id) ∧
    (∃ t ∈ (deleteEmailAction db u a).1.deleted_aliases, t.email = a.email) ∧
    ((∃ t ∈ db.deleted_aliases, t.email = a.email) →
      (deleteEmailAction db u a).1.deleted_aliases = db.deleted_aliases) ∧
    ((db.deleted_aliases.map (fun t => t.email)).Nodup →
      ((deleteEmailAction db u a).1.deleted_aliases.map
        (fun t => t.email)).Nodup) := by
  by_cases hdup : db.deleted_aliases.any (fun t => t.email == a.email)
  · have heq : (deleteEmailAction db u a).1 =
        { db with aliases := db.aliases.filter (fun x => x.id != a.id) } := by
      unfold deleteEmailAction
      simp [hdup]
    rw [heq]
    refine ⟨?_, ?_, ?_, ?_⟩
    · intro x hx
      have := (List.mem_filter.mp hx).2
      simpa using this
    · obtain ⟨t, ht, hte⟩ := List.any_eq_true.mp hdup
      exact ⟨t, ht, by simpa using hte⟩
    · intro _; rfl
    · intro h; exact h
  · have hnot : ∀ t ∈ db.deleted_aliases, t.email ≠ a.email := by
      intro t ht he
      exact hdup (List.any_eq_true.mpr ⟨t, ht, by simpa using he⟩)
    have heq : (deleteEmailAction db u a).1 =
        { db with aliases := db.aliases.filter (fun x => x.id != a.id)
                  deleted_aliases := db.deleted_aliases ++
                    [{ user_id := u.id, email := a.email }] } := by
      unfold deleteEmailAction
      simp [hdup]
    rw [heq]
    refine ⟨?_, ?_, ?_, ?_⟩
    · intro x hx
      have := (List.mem_filter.mp hx).2
      simpa using this
    · exact ⟨{ user_id := u.id, email := a.email },
        List.mem_append_right _ (List.mem_singleton.mpr rfl), rfl⟩
    · intro hex
      obtain ⟨t, ht, hte⟩ := hex
      exact absurd hte (hnot t ht)
    · intro hnd
      rw [List.map_append, List.nodup_append]
      refine ⟨hnd, List.nodup_singleton _, ?_⟩
      intro e he
      obtain ⟨t, ht, rfl⟩ := List.mem_map.mp he
      simp only [List.map_cons, List.map_nil, List.mem_singleton]
      exact fun hc => hnot t ht hc

/-- C3 witness: on the fixture whose tombstone already exists, the alias
is deleted and the tombstone table is left exactly as it was. -/
theorem delete_email_tombstone_safe_witness :
    (∀ x ∈ (deleteEmailAction ex3Db ex3User ex3Alias).1.aliases,
      x.id ≠ ex3Alias.id) ∧
    (deleteEmailAction ex3Db ex3User ex3Alias).1.deleted_aliases =
      ex3Db.deleted_aliases :=
  ⟨(delete_email_tombstone_safe ex3Db ex3User ex3Alias).1,
    (delete_email_tombstone_safe ex3Db ex3User ex3Alias).2.2.1 (by decide)⟩

/-- C8: `create-random-email` with a failing plan-based quota check
leaves the database untouched and flashes an upgrade warning; with a
passing check it appends one fresh alias pointed at the user's default
mailbox and redirects highlighting it. -/
theorem create_random_email_quota (db : Db) (u : User) (scheme : Nat) :
    (u.can_create_new_alias = false →
      createRandomEmailAction db u scheme =
        (db, ActionResult.flashOnly FlashKind.warning)) ∧
    (u.can_create_new_alias = true →
      ∃ a : Alias,
        (createRandomEmailAction db u scheme).1 =
          { db with aliases := db.aliases ++ [a] } ∧
        a.user_id = u.id ∧
        a.mailbox_id = u.default_mailbox_id ∧
        (∀ x ∈ db.aliases, x.id ≠ a.id) ∧
        (createRandomEmailAction db u scheme).2 =
          ActionResult.redirectHighlight a.id FlashKind.success) := by
  constructor
  · intro h
    unfold createRandomEmailAction
    simp [h]
  · intro h
    unfold createRandomEmailAction
    simp only [h, if_true]
    refine ⟨{ create_new_random db u scheme with
        mailbox_id := u.default_mailbox_id }, rfl, rfl, rfl, ?_, rfl⟩
    intro x hx
    have hle := mem_le_foldl_max (db.aliases.map (fun al => al.id)) 0 x.id
      (List.mem_map_of_mem _ hx)
    have : ({ create_new_random db u scheme with
        mailbox_id := u.default_mailbox_id } : Alias).id =
        (db.aliases.map (fun al => al.id)).foldl max 0 + 1 := rfl
    omega

/-- C8 witness: the quota-failing fixture user gets a warning and an
unchanged database; the quota-passing fixture user gets a fresh alias on
their default mailbox. -/
theorem create_random_email_quota_witness :
    createRandomEmailAction ex8Db ex8UserNoQuota 1 =
      (ex8Db, ActionResult.flashOnly FlashKind.warning) ∧
    (∃ a : Alias,
      (createRandomEmailAction ex8Db ex8UserQuota 1).1 =
        { ex8Db with aliases := ex8Db.aliases ++ [a] } ∧
      a.user_id = ex8UserQuota.id ∧
      a.mailbox_id = ex8UserQuota.default_mailbox_id ∧
      (∀ x ∈ ex8Db.aliases, x.id ≠ a.id) ∧
      (createRandomEmailAction ex8Db ex8UserQuota 1).2 =
        ActionResult.redirectHighlight a.id FlashKind.success) :=
  ⟨(create_random_email_quota ex8Db ex8UserNoQuota 1).1 rfl,
    (create_random_email_quota ex8Db ex8UserQuota 1).2 rfl⟩

/-- C10: when no email log of an alias is strictly more recent than the
alias's creation time, `get_alias_info` leaves both `latest_email_log`
and `latest_contact` as `None`, regardless of the counters. -/
theorem latest_pair_none_without_strictly_later_log (db : Db) (a : Alias)
    (h : ∀ p ∈ aliasLogs db a, p.2.created_at ≤ a.created_at) :
    (get_alias_info db a).latest_email_log = none ∧
    (get_alias_info db a).latest_contact = none := by
  have hfix := foldl_scan_no_later (aliasLogs db a)
    { nb_forward := 0, nb_blocked := 0, nb_reply := 0
      latest_activity := a.created_at
      latest_email_log := none, latest_contact := none } h
  exact ⟨hfix.1, hfix.2.1⟩

/-- C10 witness: the fixture alias has one forwarded log timestamped at
its own creation instant; the count is 1 yet the latest pair is `None`. -/
theorem latest_pair_none_without_strictly_later_log_witness :
    ((get_alias_info ex10Db ex10Alias).latest_email_log = none ∧
      (get_alias_info ex10Db ex10Alias).latest_contact = none) ∧
    (get_alias_info ex10Db ex10Alias).nb_forward = 1 :=
  ⟨latest_pair_none_without_strictly_later_log ex10Db ex10Alias (by decide),
    by decide⟩

/-- C2 counterexample: an alias whose single (contact, email-log) pair —
hence its single most recent pair — predates the alias's creation time;
`get_alias_info` counts it but reports no latest pair, so the returned
`latest_email_log`/`latest_contact` do not identify the most recent
pair. -/
theorem get_alias_info_latest_pair_missed :
    aliasLogs ex2Db ex2Alias = [(ex2Contact, ex2Log)] ∧
    (get_alias_info ex2Db ex2Alias).nb_forward = 1 ∧
    (get_alias_info ex2Db ex2Alias).latest_email_log = none ∧
    (get_alias_info ex2Db ex2Alias).latest_contact = none := by
  decide

/-- C2 (amended): `get_alias_info` counts reply logs, non-reply blocked
logs, and remaining (forwarded) logs; `latest_email_log`/`latest_contact`
identify a most recent (contact, email-log) pair whenever some log is
strictly more recent than the alias's creation time, and are `None` when
no log is. -/
theorem get_alias_info_statistics (db : Db) (a : Alias) :
    (get_alias_info db a).nb_reply =
      (aliasLogs db a).countP (fun p => p.2.is_reply) ∧
    (get_alias_info db a).nb_blocked =
      (aliasLogs db a).countP (fun p => !p.2.is_reply && p.2.blocked) ∧
    (get_alias_info db a).nb_forward =
      (aliasLogs db a).countP (fun p => !p.2.is_reply && !p.2.blocked) ∧
    ((∃ p ∈ aliasLogs db a, a.created_at < p.2.created_at) →
      ∃ p ∈ aliasLogs db a,
        (get_alias_info db a).latest_email_log = some p.2 ∧
        (get_alias_info db a).latest_contact = some p.1 ∧
        a.created_at < p.2.created_at ∧
        ∀ q ∈ aliasLogs db a, q.2.created_at ≤ p.2.created_at) ∧
    ((∀ p ∈ aliasLogs db a, p.2.created_at ≤ a.created_at) →
      (get_alias_info db a).latest_email_log = none ∧
      (get_alias_info db a).latest_contact = none) := by
  set s0 : ScanState :=
    { nb_forward := 0, nb_blocked := 0, nb_reply := 0
      latest_activity := a.created_at
      latest_email_log := none, latest_contact := none } with hs0
  obtain ⟨hc1, hc2, hc3⟩ := foldl_scan_counters (aliasLogs db a) s0
  refine ⟨by simpa [get_alias_info] using hc1,
    by simpa [get_alias_info] using hc2,
    by simpa [get_alias_info] using hc3, ?_, ?_⟩
  · intro hex
    obtain ⟨p, hp, h1, h2, h3⟩ := foldl_scan_sets_latest (aliasLogs db a) s0 hex
    refine ⟨p, hp, h1, h2, ?_, ?_⟩
    · obtain ⟨p0, hp0, hp0lt⟩ := hex
      have hmax := foldl_scan_latest_activity (aliasLogs db a) s0
      have hge := mem_le_foldl_max
        ((aliasLogs db a).map (fun q => q.2.created_at)) s0.latest_activity
        p0.2.created_at (List.mem_map_of_mem _ hp0)
      rw [← hmax, h3] at hge
      exact Nat.lt_of_lt_of_le hp0lt hge
    · intro q hq
      have hmax := foldl_scan_latest_activity (aliasLogs db a) s0
      have hge := mem_le_foldl_max
        ((aliasLogs db a).map (fun r => r.2.created_at)) s0.latest_activity
        q.2.created_at (List.mem_map_of_mem _ hq)
      rw [← hmax, h3] at hge
      exact hge
  · intro hle
    have hfix := foldl_scan_no_later (aliasLogs db a) s0 hle
    exact ⟨hfix.1, hfix.2.1⟩

/-- C2 witness: on a fixture with one reply, one blocked and one
forwarded log, the counters are 1/1/1 and the latest pair exists since
the forwarded log postdates the alias. -/
theorem get_alias_info_statistics_witness :
    (get_alias_info ex2wDb ex2wAlias).nb_reply = 1 ∧
    (get_alias_info ex2wDb ex2wAlias).nb_blocked = 1 ∧
    (get_alias_info ex2wDb ex2wAlias).nb_forward = 1 ∧
    (∃ p ∈ aliasLogs ex2wDb ex2wAlias,
      (get_alias_info ex2wDb ex2wAlias).latest_email_log = some p.2 ∧
      (get_alias_info ex2wDb ex2wAlias).latest_contact = some p.1 ∧
      ex2wAlias.created_at < p.2.created_at ∧
      ∀ q ∈ aliasLogs ex2wDb ex2wAlias,
        q.2.created_at ≤ p.2.created_at) :=
  ⟨by decide, by decide, by decide,
    (get_alias_info_statistics ex2wDb ex2wAlias).2.2.2.1 (by decide)⟩

/-- C5: each page holds at most `PAGE_LIMIT` entries, and is exactly the
slice of the activity-ordered, filtered alias list starting at offset
`page * PAGE_LIMIT`, mapped through `get_alias_info`. -/
theorem pagination_at_most_page_limit (db : Db) (user : User) (page : Nat)
    (query : String) :
    get_alias_infos_with_pagination db user page query =
      (((orderedFilteredAliases db user query).drop (page * PAGE_LIMIT)).take
        PAGE_LIMIT).map (get_alias_info db) ∧
    (get_alias_infos_with_pagination db user page query).length ≤
      PAGE_LIMIT := by
  have hmap := foldl_append_singleton_eq_map (get_alias_info db)
    (((orderedFilteredAliases db user query).drop (page * PAGE_LIMIT)).take
      PAGE_LIMIT) []
  have heq : get_alias_infos_with_pagination db user page query =
      (((orderedFilteredAliases db user query).drop (page * PAGE_LIMIT)).take
        PAGE_LIMIT).map (get_alias_info db) := by
    unfold get_alias_infos_with_pagination
    simpa using hmap
  refine ⟨heq, ?_⟩
  rw [heq, List.length_map]
  exact Nat.le_trans (Nat.le_of_eq (List.length_take _ _))
    (Nat.min_le_left _ _)

/-- C5 witness: instantiation on the `ex2Db` fixture, page 0, no query. -/
theorem pagination_at_most_page_limit_witness :
    get_alias_infos_with_pagination ex2Db ex4User 0 "" =
      (((orderedFilteredAliases ex2Db ex4User "").drop (0 * PAGE_LIMIT)).take
        PAGE_LIMIT).map (get_alias_info ex2Db) ∧
    (get_alias_infos_with_pagination ex2Db ex4User 0 "").length ≤
      PAGE_LIMIT :=
  pagination_at_most_page_limit ex2Db ex4User 0 ""

/-- C1: the page returned by `get_alias_infos_with_pagination` is ordered
by most recent activity: non-increasing in `latestActivity`, the maximum
of the alias's creation time and its logs' creation times. -/
theorem pagination_ordered_by_latest_activity (db : Db) (user : User)
    (page : Nat) (query : String) :
    (get_alias_infos_with_pagination db user page query).Pairwise
      (fun x y =>
        latestActivity db y.«alias» ≤ latestActivity db x.«alias») := by
  have htransb : ∀ a b c : Alias,
      decide (latestActivity db b ≤ latestActivity db a) →
      decide (latestActivity db c ≤ latestActivity db b) →
      decide (latestActivity db c ≤ latestActivity db a) := by
    intro a b c hab hbc
    exact decide_eq_true
      (Nat.le_trans (of_decide_eq_true hbc) (of_decide_eq_true hab))
  have htotalb : ∀ a b : Alias,
      (decide (latestActivity db b ≤ latestActivity db a) ||
        decide (latestActivity db a ≤ latestActivity db b)) = true := by
    intro a b
    rcases Nat.le_total (latestActivity db b) (latestActivity db a) with h | h
    · rw [decide_eq_true h]; rfl
    · rw [decide_eq_true h, Bool.or_true]
  have hsorted : (orderedFilteredAliases db user query).Pairwise
      (fun a b => latestActivity db b ≤ latestActivity db a) := by
    unfold orderedFilteredAliases
    have h := List.sorted_mergeSort htransb htotalb
      (if query == "" then db.aliases.filter (fun a => a.user_id == user.id)
       else (db.aliases.filter (fun a => a.user_id == user.id)).filter
         (matchesQuery query))
    exact h.imp (fun hab => of_decide_eq_true hab)
  have hslice :
      ((((orderedFilteredAliases db user query).drop
        (page * PAGE_LIMIT)).take PAGE_LIMIT)).Pairwise
        (fun a b => latestActivity db b ≤ latestActivity db a) :=
    List.Pairwise.sublist
      ((List.take_sublist _ _).trans (List.drop_sublist _ _)) hsorted
  have hmap := foldl_append_singleton_eq_map (get_alias_info db)
    (((orderedFilteredAliases db user query).drop (page * PAGE_LIMIT)).take
      PAGE_LIMIT) []
  have heq : get_alias_infos_with_pagination db user page query =
      (((orderedFilteredAliases db user query).drop (page * PAGE_LIMIT)).take
        PAGE_LIMIT).map (get_alias_info db) := by
    unfold get_alias_infos_with_pagination
    simpa using hmap
  rw [heq]
  exact List.pairwise_map.mpr hslice

/-- C1 witness: on the `ex1Db` fixture user 1's page 0 holds both of
their aliases (length 2, latest activities 50 and 30), so the proved
`Pairwise` ordering compares an actual pair of entries. -/
theorem pagination_ordered_by_latest_activity_witness :
    (get_alias_infos_with_pagination ex1Db ex1User 0 "").Pairwise
      (fun x y =>
        latestActivity ex1Db y.«alias» ≤ latestActivity ex1Db x.«alias») ∧
    (get_alias_infos_with_pagination ex1Db ex1User 0 "").length = 2 := by
  refine ⟨pagination_ordered_by_latest_activity ex1Db ex1User 0 "", ?_⟩
  rw [pagination_length_eq, orderedFilteredAliases_length]
  decide

end DashboardIndex
